import Mathlib

/-!
Verification development for the pyDrop coarse-graining clustering module
(`pyDrop/clustering/course_graining.py`).

Conventions of the shallow embedding:
* Python floats are modelled as exact rationals (`ℚ`); Python ints as `ℤ`
  (counts as `ℕ` where the source value is a length).
* Python `int(x)` truncates toward zero; it is modelled by `pyTrunc`.
* Python `x // y` on floats is mathematical floor division `⌊x / y⌋`.
* 2-D numpy arrays are modelled as lists of rows (`List (List ℚ)`), with
  the column count (`n_features`, read off `X.shape` in the source) passed
  explicitly; rectangularity is a hypothesis where a theorem needs it.
* `assert` failures and raised exceptions are modelled with `Except CGError`.
-/

/-- Python `int()` conversion on a rational: truncation toward zero
(`int(-0.5) == 0`, `int(2.7) == 2`). -/
def pyTrunc (q : ℚ) : ℤ :=
  if q < 0 then ⌈q⌉ else ⌊q⌋

/-- State of a `ModuloBins(mod, rem)` strategy (source lines 42-44). -/
structure ModuloBins where
  mod : ℤ
  rem : ℤ
deriving DecidableEq, Repr

/-- Source `ModuloBins._id_to_bin_start`: `float(idx*self.mod + self.rem)`. -/
def ModuloBins.id_to_bin_start (b : ModuloBins) (idx : ℤ) : ℚ :=
  ((idx * b.mod + b.rem : ℤ) : ℚ)

/-- Source `ModuloBins._id_to_bin_center`:
`float(idx*self.mod + self.rem) + self.mod/2`. -/
def ModuloBins.id_to_bin_center (b : ModuloBins) (idx : ℤ) : ℚ :=
  ((idx * b.mod + b.rem : ℤ) : ℚ) + (b.mod : ℚ) / 2

/-- Source `ModuloBins._value_to_id`: `int((value-self.rem)/self.mod)` —
Python `int()` truncates the true-division quotient toward zero. -/
def ModuloBins.value_to_id (b : ModuloBins) (value : ℚ) : ℤ :=
  pyTrunc ((value - (b.rem : ℚ)) / (b.mod : ℚ))

/-- State of a `LinSpaceBins(min, max, n_bins)` strategy (source lines 81-86).
`step` is stored as a field because `ArrangeBins.__init__` (source lines
139-145) sets `min`, `max`, `step`, `n_bins` directly and reuses the same
evaluation methods by inheritance. -/
structure LinSpaceBins where
  min : ℚ
  max : ℚ
  n_bins : ℤ
  step : ℚ
deriving DecidableEq, Repr

/-- `LinSpaceBins.__init__`: stores min/max/n_bins and derives
`step = float(max-min)/n_bins`. -/
def LinSpaceBins.make (min max : ℚ) (n_bins : ℤ) : LinSpaceBins :=
  ⟨min, max, n_bins, (max - min) / (n_bins : ℚ)⟩

/-- `ArrangeBins.__init__`: stores min/max/step, sets
`n_bins = len(np.arange(min, max, step))`, then shares `LinSpaceBins`'s
evaluation methods (the class only overrides `__init__`).
`np.arange(a, b, s)` with `s > 0` has `max(0, ⌈(b-a)/s⌉)` elements. -/
def ArrangeBins.make (min max step : ℚ) : LinSpaceBins :=
  ⟨min, max, Max.max 0 ⌈(max - min) / step⌉, step⟩

/-- Source `LinSpaceBins._id_to_bin_start` (lines 93-99). -/
def LinSpaceBins.id_to_bin_start (b : LinSpaceBins) (idx : ℤ) : ℚ :=
  if idx ≥ b.n_bins then b.max - b.step
  else if idx < 0 then b.min
  else b.min + (idx : ℚ) * b.step

/-- Source `LinSpaceBins._id_to_bin_center` (lines 101-107). -/
def LinSpaceBins.id_to_bin_center (b : LinSpaceBins) (idx : ℤ) : ℚ :=
  if idx ≥ b.n_bins then b.max - b.step / 2
  else if idx < 0 then b.min + b.step / 2
  else b.min + (idx : ℚ) * b.step + b.step / 2

/-- Source `LinSpaceBins._value_to_id` (lines 109-115).  The last branch is
`int((value - self.min) // self.step)`: float floor-division already yields
an integral float, so the Python `int()` is the identity on it and the
branch is the mathematical floor of the quotient. -/
def LinSpaceBins.value_to_id (b : LinSpaceBins) (value : ℚ) : ℤ :=
  if value ≤ b.min then 0
  else if value > b.max then b.n_bins
  else ⌊(value - b.min) / b.step⌋

/-- The polymorphic bin-function interface: in the source any of
`ModuloBins`, `LinSpaceBins`, `ArrangeBins` can be stored in `Bins`
(`ArrangeBins` instances are `LinSpaceBins` values here, since the subclass
only overrides `__init__`, see `ArrangeBins.make`). -/
inductive Strategy where
  | modulo : ModuloBins → Strategy
  | linspace : LinSpaceBins → Strategy
deriving DecidableEq, Repr

def Strategy.value_to_id : Strategy → ℚ → ℤ
  | .modulo b, v => b.value_to_id v
  | .linspace b, v => b.value_to_id v

def Strategy.id_to_bin_start : Strategy → ℤ → ℚ
  | .modulo b, i => b.id_to_bin_start i
  | .linspace b, i => b.id_to_bin_start i

def Strategy.id_to_bin_center : Strategy → ℤ → ℚ
  | .modulo b, i => b.id_to_bin_center i
  | .linspace b, i => b.id_to_bin_center i

/-- State of the `Bins` container (source lines 168-170): the default
bin-function constructor and the ordered list of per-axis strategies.
`default_binf` models the stored constructor `ModuloBins` (a fresh call of
which yields `ModuloBins(100, 0)`) by the value it constructs. -/
structure Bins where
  default_binf : Strategy
  bin_functions : List Strategy
deriving DecidableEq, Repr

/-- `Bins()` with the default `default_binf=ModuloBins`. -/
def Bins.init : Bins :=
  ⟨.modulo ⟨100, 0⟩, []⟩

/-- Source `Bins.add_axis` (lines 172-187): `if not binf` is true exactly
for the Python-falsy argument `None`, in which case the default constructor
is invoked; the strategy is appended. -/
def Bins.add_axis (b : Bins) (binf : Option Strategy) : Bins :=
  match binf with
  | none => ⟨b.default_binf, b.bin_functions ++ [b.default_binf]⟩
  | some f => ⟨b.default_binf, b.bin_functions ++ [f]⟩

/-- Source `Bins.add_axes` (lines 189-204): `add_axis` on each element in
order. -/
def Bins.add_axes (b : Bins) (binfs : List Strategy) : Bins :=
  binfs.foldl (fun acc f => acc.add_axis (some f)) b

/-- Source `Bins.get_num_axes` (lines 206-218). -/
def Bins.get_num_axes (b : Bins) : ℕ :=
  b.bin_functions.length

/-- One row of `Bins.value_to_id`: column `i` of the row goes through the
`i`-th stored strategy. -/
def Bins.rowToId (b : Bins) (row : List ℚ) : List ℤ :=
  List.zipWith Strategy.value_to_id b.bin_functions row

/-- One row of `Bins.id_to_bin_center`. -/
def Bins.rowToCenter (b : Bins) (row : List ℤ) : List ℚ :=
  List.zipWith Strategy.id_to_bin_center b.bin_functions row

/-- Source `Bins.value_to_id` (lines 285-308) on a 2-D array of shape
`(n_samples, n_features)`: asserts `n_features == len(self.bin_functions)`
(`none` = `AssertionError`), then applies strategy `i` to column `i`. -/
def Bins.value_to_id (b : Bins) (X : List (List ℚ)) (n_features : ℕ) :
    Option (List (List ℤ)) :=
  if b.bin_functions.length = n_features then some (X.map b.rowToId) else none

/-- Source `Bins.id_to_bin_center` (lines 259-283), same shape contract. -/
def Bins.id_to_bin_center (b : Bins) (ids : List (List ℤ)) (n_features : ℕ) :
    Option (List (List ℚ)) :=
  if b.bin_functions.length = n_features then some (ids.map b.rowToCenter)
  else none

/-- The exceptions the clustering wrappers can raise:
`AmbiguousCGFunction`, `AssertionError` (shape-contract violation in
`Bins`), `ModelValueError` (bad model selector in `predict`). -/
inductive CGError where
  | ambiguousCGFunction
  | assertionError
  | modelValueError
deriving DecidableEq, Repr

/-- Source `CGCluster.fit_uniform_coarse_grain` (lines 335-350): build
`[binf]*n_features` and pass it to `self.bins.add_axes` (which appends).
The source default argument is `binf=ModuloBins(100)`, i.e.
`ModuloBins.mk 100 0`. -/
def CGCluster.fit_uniform_coarse_grain (b : Bins) (n_features : ℕ)
    (binf : Strategy) : Bins :=
  b.add_axes (List.replicate n_features binf)

/-- The tail of `CGCluster.coarse_grain` (source lines 377-381):
`value_to_id`, deduplicate the id rows (`np.unique(..., axis=0)`;
modelled by `List.dedup`, which keeps the same number of distinct rows but
not numpy's sorted order), then `id_to_bin_center`.  Returns the bins
object that was used together with the center matrix, mirroring the
mutation of `self.bins`. -/
def coarseGrainEval (b : Bins) (X : List (List ℚ)) (n_features : ℕ) :
    Except CGError (Bins × List (List ℚ)) :=
  match b.value_to_id X n_features with
  | none => .error .assertionError
  | some ids =>
    match b.id_to_bin_center ids.dedup n_features with
    | none => .error .assertionError
    | some centers => .ok (b, centers)

/-- Source `CGCluster.coarse_grain` (lines 352-381): zero configured axes
→ auto-fill with the default `ModuloBins(100)` via
`fit_uniform_coarse_grain`; positive-but-insufficient axes →
`AmbiguousCGFunction`; otherwise bin, deduplicate, evaluate centers. -/
def CGCluster.coarse_grain (b : Bins) (X : List (List ℚ)) (n_features : ℕ) :
    Except CGError (Bins × List (List ℚ)) :=
  if b.get_num_axes = 0 then
    coarseGrainEval
      (CGCluster.fit_uniform_coarse_grain b n_features (.modulo ⟨100, 0⟩))
      X n_features
  else if b.get_num_axes < n_features then .error .ambiguousCGFunction
  else coarseGrainEval b X n_features

/-- The `n_init` hyperparameter of a centroid model: sklearn accepts the
string `auto` or a number; `KMCalico.__init__` sets `auto` on the coarse
copy and `1` on the fine copy. -/
inductive NInit where
  | auto
  | num : ℕ → NInit
deriving DecidableEq, Repr

/-- Observable state of an external clustering model (the collaborator
interface of the source: `fit`, `predict`, `fit_predict`, `set_params`,
`cluster_centers_`).  `init` is the explicitly configured initial-centroid
matrix (sklearn `init` parameter), `n_init` the restart count, `fitData`
the data the model was last fit on (`none` = never fit). -/
structure MState where
  init : Option (List (List ℚ))
  n_init : NInit
  fitData : Option (List (List ℚ))
deriving DecidableEq, Repr

/-- `m.fit(X)`: the model's fitted state now reflects `X`; hyperparameters
are unchanged. -/
def MState.fitOn (m : MState) (X : List (List ℚ)) : MState :=
  ⟨m.init, m.n_init, some X⟩

/-- `m.set_params(init=c)`. -/
def MState.setInit (m : MState) (c : List (List ℚ)) : MState :=
  ⟨some c, m.n_init, m.fitData⟩

/-- `m.set_params(n_init=v)`. -/
def MState.setNInit (m : MState) (v : NInit) : MState :=
  ⟨m.init, v, m.fitData⟩

/-- State of a `CGCluster` wrapper: the bins container, the caller-supplied
template `model` (stored by reference in the source: `self.model = model`),
and `coarse_model = deepcopy(model)`. -/
structure CGClusterState where
  bins : Bins
  model : MState
  coarse_model : MState
deriving DecidableEq, Repr

/-- Source `CGCluster.__init__` (lines 329-333): keeps the caller's model as
the template and deep-copies it into `coarse_model` (deep copy = value copy
of the observable state). -/
def CGClusterState.make (b : Bins) (m : MState) : CGClusterState :=
  ⟨b, m, m⟩

/-- Source `CGCluster.fit` (lines 383-396): coarse-grain (which may mutate
`self.bins`), then fit only `coarse_model` on the coarse centers. -/
def CGClusterState.fit (st : CGClusterState) (X : List (List ℚ))
    (n_features : ℕ) : Except CGError CGClusterState :=
  match CGCluster.coarse_grain st.bins X n_features with
  | .error e => .error e
  | .ok (b', centers) => .ok ⟨b', st.model, st.coarse_model.fitOn centers⟩

/-- Source `CGCluster.predict` (lines 398-420), parametrized by the
external model's label function (`labelsOf m X` = the labels `m` predicts
on `X`).  `"coarse"` calls `self.coarse_model.predict(X)` (no mutation);
`"default"` calls `self.model.fit_predict(X)`, which per the sklearn
collaborator contract fits the model in place and reads the labels off the
fitted state; anything else raises `ModelValueError`. -/
def CGClusterState.predict (labelsOf : MState → List (List ℚ) → List ℤ)
    (st : CGClusterState) (X : List (List ℚ)) (mode : String) :
    Except CGError (CGClusterState × List ℤ) :=
  if mode = "coarse" then .ok (st, labelsOf st.coarse_model X)
  else if mode = "default" then
    .ok (⟨st.bins, st.model.fitOn X, st.coarse_model⟩,
      labelsOf (st.model.fitOn X) X)
  else .error .modelValueError

/-- State of a `KMCalico` wrapper: template `model`, `coarse_model`
(deep copy with `n_init='auto'`), `fine_model` (deep copy with
`n_init=1`). -/
structure KMCalicoState where
  bins : Bins
  model : MState
  coarse_model : MState
  fine_model : MState
deriving DecidableEq, Repr

/-- Source `KMCalico.__init__` (lines 467-479). -/
def KMCalicoState.make (b : Bins) (k_means_model : MState) : KMCalicoState :=
  ⟨b, k_means_model,
    (k_means_model.setNInit .auto),
    (k_means_model.setNInit (.num 1))⟩

/-- Source `KMCalico.fit` (lines 481-500), parametrized by the external
centroid reader `centersOf` (`m.cluster_centers_` of a fitted model `m`):
coarse-grain, fit `coarse_model` on the coarse centers, read its centroids,
seed `fine_model` with them via `set_params(init=...)`, and fit
`fine_model` on the original `X`. -/
def KMCalicoState.fit (centersOf : MState → List (List ℚ))
    (st : KMCalicoState) (X : List (List ℚ)) (n_features : ℕ) :
    Except CGError KMCalicoState :=
  match CGCluster.coarse_grain st.bins X n_features with
  | .error e => .error e
  | .ok (b', centers) =>
    let coarseFit := st.coarse_model.fitOn centers
    let fineFit := (st.fine_model.setInit (centersOf coarseFit)).fitOn X
    .ok ⟨b', st.model, coarseFit, fineFit⟩

/-!
Object-identity model for the mutable default arguments.

`def __init__(self, bins=Bins(), ...)` evaluates `Bins()` once, when the
`def` statement of the class body runs; every later default-constructed
instance receives a reference to that same object.  `CGCluster.__init__`
(line 329) and `KMCalico.__init__` (line 467) each have their own such
default object.  The heap below holds those two class-level default `Bins`
objects plus the explicitly allocated ones, and a wrapper instance holds a
reference into it.
-/

/-- A reference to a `Bins` object: the `CGCluster.__init__` default
object, the `KMCalico.__init__` default object, or an explicitly
constructed object. -/
inductive BinsRef where
  | cgDefault
  | kmDefault
  | alloc : ℕ → BinsRef
deriving DecidableEq, Repr

/-- The store of live `Bins` objects. -/
structure PyHeap where
  cgDefaultBins : Bins
  kmDefaultBins : Bins
  allocated : List Bins
deriving DecidableEq, Repr

/-- Heap state right after the module is imported: both class-level default
objects are fresh `Bins()` and nothing else is allocated. -/
def PyHeap.initial : PyHeap :=
  ⟨Bins.init, Bins.init, []⟩

def PyHeap.read (h : PyHeap) : BinsRef → Bins
  | .cgDefault => h.cgDefaultBins
  | .kmDefault => h.kmDefaultBins
  | .alloc n => h.allocated.getD n Bins.init

def PyHeap.write (h : PyHeap) : BinsRef → Bins → PyHeap
  | .cgDefault, b => ⟨b, h.kmDefaultBins, h.allocated⟩
  | .kmDefault, b => ⟨h.cgDefaultBins, b, h.allocated⟩
  | .alloc n, b => ⟨h.cgDefaultBins, h.kmDefaultBins, h.allocated.set n b⟩

/-- `CGCluster()` with the `bins` argument left to its default: the
instance's `self.bins` is a reference to the shared class-level object. -/
def CGClusterRef.initDefault : BinsRef :=
  .cgDefault

/-- `KMCalico()` with the `bins` argument left to its default. -/
def KMCalicoRef.initDefault : BinsRef :=
  .kmDefault

/-- `CGCluster(bins=Bins())` (or `KMCalico(bins=Bins())`) with an
explicitly constructed argument: a fresh object is allocated and the
instance references it. -/
def CGClusterRef.initFresh (h : PyHeap) (b : Bins) : PyHeap × BinsRef :=
  (⟨h.cgDefaultBins, h.kmDefaultBins, h.allocated ++ [b]⟩,
    .alloc h.allocated.length)

/-- `CGCluster.coarse_grain` acting through a reference: reads the `Bins`
object the instance holds, runs the coarse-graining, and writes the
(possibly auto-filled) object back through the same reference. -/
def CGClusterRef.coarse_grain (h : PyHeap) (r : BinsRef)
    (X : List (List ℚ)) (n_features : ℕ) :
    Except CGError (PyHeap × List (List ℚ)) :=
  match CGCluster.coarse_grain (h.read r) X n_features with
  | .error e => .error e
  | .ok (b', centers) => .ok (h.write r b', centers)

/-- A `Bins` container with a single `ModuloBins(100)` axis, used by
concrete instantiations below. -/
def binsOneAxis : Bins :=
  ⟨.modulo ⟨100, 0⟩, [.modulo ⟨100, 0⟩]⟩

/-- A never-fit template model with default hyperparameters. -/
def templateModel : MState :=
  ⟨none, .auto, none⟩

/-- The heap after the auto-fill of a 2-feature `coarse_grain` call made
through a default-constructed `CGCluster`: the `CGCluster.__init__` default
`Bins` object now holds two `ModuloBins(100)` axes; the `KMCalico.__init__`
default object is untouched. -/
def heapAfterAutofill : PyHeap :=
  ⟨⟨.modulo ⟨100, 0⟩, [.modulo ⟨100, 0⟩, .modulo ⟨100, 0⟩]⟩, Bins.init, []⟩

example : (LinSpaceBins.make 0 3000 3).value_to_id 3000 = 3 := by
  norm_num [LinSpaceBins.make, LinSpaceBins.value_to_id]
example : (LinSpaceBins.make 0 3000 3).value_to_id 490 = 0 := by
  norm_num [LinSpaceBins.make, LinSpaceBins.value_to_id]
example : (LinSpaceBins.make 0 3000 3).id_to_bin_center 0 = 500 := by
  norm_num [LinSpaceBins.make, LinSpaceBins.id_to_bin_center]
example : (ModuloBins.mk 100 0).value_to_id 1253 = 12 := by
  norm_num [ModuloBins.value_to_id, pyTrunc]
example : (ModuloBins.mk 100 0).value_to_id (-50) = 0 := by
  norm_num [ModuloBins.value_to_id, pyTrunc]
example : (ModuloBins.mk 100 0).id_to_bin_center 12 = 1250 := by
  norm_num [ModuloBins.id_to_bin_center]

lemma Bins.add_axes_bin_functions (b : Bins) (fs : List Strategy) :
    (b.add_axes fs).bin_functions = b.bin_functions ++ fs := by
  induction fs generalizing b with
  | nil => simp [Bins.add_axes]
  | cons f t ih =>
    show ((b.add_axis (some f)).add_axes t).bin_functions = _
    rw [ih]
    simp [Bins.add_axis]

lemma Bins.add_axes_default_binf (b : Bins) (fs : List Strategy) :
    (b.add_axes fs).default_binf = b.default_binf := by
  induction fs generalizing b with
  | nil => rfl
  | cons f t ih =>
    show ((b.add_axis (some f)).add_axes t).default_binf = _
    rw [ih]
    simp [Bins.add_axis]

lemma coarseGrainEval_ok {b b' : Bins} {X C : List (List ℚ)}
    {n_features : ℕ}
    (h : coarseGrainEval b X n_features = .ok (b', C)) :
    b' = b ∧ b.bin_functions.length = n_features ∧
      C = ((X.map b.rowToId).dedup).map b.rowToCenter := by
  by_cases hl : b.bin_functions.length = n_features
  · simp only [coarseGrainEval, Bins.value_to_id, Bins.id_to_bin_center,
      if_pos hl, Except.ok.injEq, Prod.mk.injEq] at h
    exact ⟨h.1.symm, hl, h.2.symm⟩
  · simp [coarseGrainEval, Bins.value_to_id, if_neg hl] at h

/-- Claim C1 counterexample: for `LinSpaceBins(0, 3000, 3)` (so `step` is
exactly `1000`) the source gives `value_to_id(3000) = ⌊3000/1000⌋ = 3 =
n_bins`, not a value `≤ n_bins - 1` as the claim asserts for `max`. -/
theorem c1_linspace_value_to_id_max_counterexample :
    (LinSpaceBins.make 0 3000 3).value_to_id 3000 = 3 ∧
      ¬ ((LinSpaceBins.make 0 3000 3).value_to_id 3000 ≤
          (LinSpaceBins.make 0 3000 3).n_bins - 1) := by
  constructor
  · norm_num [LinSpaceBins.make, LinSpaceBins.value_to_id]
  · norm_num [LinSpaceBins.make, LinSpaceBins.value_to_id]

/-- Claim C1, amended: for `LinSpaceBins(min, max, n_bins)` with
`min < max` and `0 < n_bins`, `value_to_id` maps `v ≤ min` to `0`,
`v > max` to `n_bins`, and every other value to `⌊(v - min)/step⌋`; but
`value_to_id(max)` equals `n_bins` itself (the overflow id), because
`(max - min)/step = n_bins` exactly. -/
theorem c1_linspace_value_to_id_spec (mn mx : ℚ) (n : ℤ)
    (hlt : mn < mx) (hn : 0 < n) :
    (∀ v : ℚ, v ≤ mn → (LinSpaceBins.make mn mx n).value_to_id v = 0) ∧
    (∀ v : ℚ, mx < v → (LinSpaceBins.make mn mx n).value_to_id v = n) ∧
    (∀ v : ℚ, mn < v → v ≤ mx →
      (LinSpaceBins.make mn mx n).value_to_id v =
        ⌊(v - mn) / (LinSpaceBins.make mn mx n).step⌋) ∧
    (LinSpaceBins.make mn mx n).value_to_id mx = n := by
  have hn' : ((n : ℚ)) ≠ 0 := by
    exact_mod_cast hn.ne'
  have hmm : mx - mn ≠ 0 := sub_ne_zero.mpr hlt.ne'
  refine ⟨?_, ?_, ?_, ?_⟩
  · intro v hv
    simp [LinSpaceBins.make, LinSpaceBins.value_to_id, if_pos hv]
  · intro v hv
    have h1 : ¬ (v ≤ mn) := not_le.mpr (hlt.trans hv)
    simp [LinSpaceBins.make, LinSpaceBins.value_to_id, if_neg h1, if_pos hv]
  · intro v hv1 hv2
    have h1 : ¬ (v ≤ mn) := not_le.mpr hv1
    have h2 : ¬ (mx < v) := not_lt.mpr hv2
    simp [LinSpaceBins.make, LinSpaceBins.value_to_id, if_neg h1, if_neg h2]
  · have h1 : ¬ (mx ≤ mn) := not_le.mpr hlt
    have h2 : ¬ (mx < mx) := lt_irrefl mx
    have hq : (mx - mn) / ((mx - mn) / (n : ℚ)) = (n : ℚ) := by
      field_simp
    simp only [LinSpaceBins.make, LinSpaceBins.value_to_id, gt_iff_lt,
      if_neg h1, if_neg h2, hq, Int.floor_intCast]

/-- Witness for C1: instantiation at `LinSpaceBins(0, 3000, 3)` and
`v = 490`, which gets id `⌊490/1000⌋ = 0`. -/
theorem c1_linspace_value_to_id_spec_witness :
    (LinSpaceBins.make 0 3000 3).value_to_id 490 =
      ⌊((490 : ℚ) - 0) / (LinSpaceBins.make 0 3000 3).step⌋ :=
  (c1_linspace_value_to_id_spec 0 3000 3 (by norm_num) (by decide)).2.2.1
    490 (by norm_num) (by norm_num)

/-- Claim C2 counterexample: `ModuloBins(100, 0)` on `v = -50`: the source
computes `int((-50 - 0)/100) = int(-0.5) = 0` (truncation toward zero),
while the claim's `⌊(-50 - 0)/100⌋ = -1`. -/
theorem c2_modulo_floor_counterexample :
    (ModuloBins.mk 100 0).value_to_id (-50) = 0 ∧
      ⌊(((-50 : ℚ)) - ((0 : ℤ) : ℚ)) / ((100 : ℤ) : ℚ)⌋ = -1 ∧
      (0 : ℤ) ≠ -1 := by
  refine ⟨?_, ?_, by decide⟩
  · norm_num [ModuloBins.value_to_id, pyTrunc]
  · norm_num

/-- Claim C2, amended: for `ModuloBins(mod, rem)` with `0 < mod`,
`value_to_id(v)` is the quotient `(v - rem)/mod` truncated toward zero —
it equals `⌊(v - rem)/mod⌋` whenever `rem ≤ v`, and `⌈(v - rem)/mod⌉`
(not the floor) when `v < rem`; `id_to_bin_start(i) = i*mod + rem` and
`id_to_bin_center(i) = i*mod + rem + mod/2`, with no clamping for any
id. -/
theorem c2_modulo_formulas (b : ModuloBins) (v : ℚ) (i : ℤ)
    (hmod : 0 < b.mod) :
    (((b.rem : ℚ)) ≤ v →
      b.value_to_id v = ⌊(v - (b.rem : ℚ)) / (b.mod : ℚ)⌋) ∧
    (v < ((b.rem : ℚ)) →
      b.value_to_id v = ⌈(v - (b.rem : ℚ)) / (b.mod : ℚ)⌉) ∧
    b.id_to_bin_start i = (i : ℚ) * (b.mod : ℚ) + (b.rem : ℚ) ∧
    b.id_to_bin_center i =
      (i : ℚ) * (b.mod : ℚ) + (b.rem : ℚ) + (b.mod : ℚ) / 2 := by
  have hmod' : (0 : ℚ) < (b.mod : ℚ) := by exact_mod_cast hmod
  refine ⟨?_, ?_, ?_, ?_⟩
  · intro hv
    have h0 : ¬ ((v - (b.rem : ℚ)) / (b.mod : ℚ) < 0) :=
      not_lt.mpr (div_nonneg (by linarith) hmod'.le)
    simp [ModuloBins.value_to_id, pyTrunc, if_neg h0]
  · intro hv
    have h0 : (v - (b.rem : ℚ)) / (b.mod : ℚ) < 0 :=
      div_neg_of_neg_of_pos (by linarith) hmod'
    simp [ModuloBins.value_to_id, pyTrunc, if_pos h0]
  · simp [ModuloBins.id_to_bin_start]
  · simp [ModuloBins.id_to_bin_center]

/-- Witness for C2: `ModuloBins(100, 0)` on `v = 1253 ≥ rem` follows the
floor formula, giving id `12`. -/
theorem c2_modulo_formulas_witness :
    (ModuloBins.mk 100 0).value_to_id 1253 =
      ⌊((1253 : ℚ) - (((0 : ℤ)) : ℚ)) / (((100 : ℤ)) : ℚ)⌋ :=
  (c2_modulo_formulas (ModuloBins.mk 100 0) 1253 12 (by decide)).1
    (by norm_num)

/-- Claim C3: the clamped evaluation formulas of `LinSpaceBins` (and of
`ArrangeBins`, whose instances are `LinSpaceBins` records produced by
`ArrangeBins.make` and which inherit the very same evaluation methods):
for a strategy with a nonnegative bin count, any id `≥ n_bins` evaluates
to the last bin's geometry, any id `< 0` to the first bin's geometry, and
in-range ids follow the linear formulas. -/
theorem c3_linspace_clamping (b : LinSpaceBins) (i : ℤ)
    (hn : 0 ≤ b.n_bins) :
    (b.n_bins ≤ i →
      b.id_to_bin_start i = b.max - b.step ∧
      b.id_to_bin_center i = b.max - b.step / 2) ∧
    (i < 0 →
      b.id_to_bin_start i = b.min ∧
      b.id_to_bin_center i = b.min + b.step / 2) ∧
    (0 ≤ i → i < b.n_bins →
      b.id_to_bin_start i = b.min + (i : ℚ) * b.step ∧
      b.id_to_bin_center i = b.min + (i : ℚ) * b.step + b.step / 2) := by
  refine ⟨?_, ?_, ?_⟩
  · intro h
    constructor
    · simp [LinSpaceBins.id_to_bin_start, if_pos h]
    · simp [LinSpaceBins.id_to_bin_center, if_pos h]
  · intro h
    have h1 : ¬ (i ≥ b.n_bins) := not_le.mpr (lt_of_lt_of_le h hn)
    constructor
    · simp [LinSpaceBins.id_to_bin_start, if_neg h1, if_pos h]
    · simp [LinSpaceBins.id_to_bin_center, if_neg h1, if_pos h]
  · intro h0 hlt
    have h1 : ¬ (i ≥ b.n_bins) := not_le.mpr hlt
    have h2 : ¬ (i < 0) := not_lt.mpr h0
    constructor
    · simp [LinSpaceBins.id_to_bin_start, if_neg h1, if_neg h2]
    · simp [LinSpaceBins.id_to_bin_center, if_neg h1, if_neg h2]

/-- Witness for C3, exercised on an `ArrangeBins(0, 3000, 1000)` instance
(`n_bins = 3`): the overflow id `3` and id `12` both evaluate to
`start = 2000`, `center = 2500`. -/
theorem c3_linspace_clamping_witness :
    (ArrangeBins.make 0 3000 1000).id_to_bin_start 12 =
        (ArrangeBins.make 0 3000 1000).max -
          (ArrangeBins.make 0 3000 1000).step ∧
      (ArrangeBins.make 0 3000 1000).id_to_bin_center 12 =
        (ArrangeBins.make 0 3000 1000).max -
          (ArrangeBins.make 0 3000 1000).step / 2 :=
  (c3_linspace_clamping (ArrangeBins.make 0 3000 1000) 12
      (by norm_num [ArrangeBins.make])).1
    (by norm_num [ArrangeBins.make])

/-- Claim C4: for `LinSpaceBins(min, max, n)` with `min < max`, `0 < n`,
and any value `v` with `min < v ≤ max`, the coarse-grained representative
`id_to_bin_center(value_to_id(v))` lies in `[min, max)` and is within
`step = (max - min)/n` of `v`. -/
theorem c4_linspace_center_roundtrip (mn mx : ℚ) (n : ℤ) (v : ℚ)
    (hlt : mn < mx) (hn : 0 < n) (hv1 : mn < v) (hv2 : v ≤ mx) :
    mn ≤ (LinSpaceBins.make mn mx n).id_to_bin_center
        ((LinSpaceBins.make mn mx n).value_to_id v) ∧
    (LinSpaceBins.make mn mx n).id_to_bin_center
        ((LinSpaceBins.make mn mx n).value_to_id v) < mx ∧
    |v - (LinSpaceBins.make mn mx n).id_to_bin_center
        ((LinSpaceBins.make mn mx n).value_to_id v)| ≤
      (LinSpaceBins.make mn mx n).step := by
  have hn' : (0 : ℚ) < (n : ℚ) := by exact_mod_cast hn
  have hn1 : (1 : ℚ) ≤ (n : ℚ) := by exact_mod_cast hn
  set s : ℚ := (mx - mn) / (n : ℚ) with hs_def
  have hs : 0 < s := div_pos (by linarith) hn'
  have hstep : (LinSpaceBins.make mn mx n).step = s := by
    simp [LinSpaceBins.make, hs_def]
  have hns : (n : ℚ) * s = mx - mn := by
    rw [hs_def]
    field_simp
  have hid : (LinSpaceBins.make mn mx n).value_to_id v = ⌊(v - mn) / s⌋ := by
    have h1 : ¬ (v ≤ mn) := not_le.mpr hv1
    have h2 : ¬ (v > mx) := not_lt.mpr hv2
    simp [LinSpaceBins.make, LinSpaceBins.value_to_id, if_neg h1, if_neg h2,
      hs_def]
  set i : ℤ := ⌊(v - mn) / s⌋ with hi_def
  have hiq : (i : ℚ) ≤ (v - mn) / s := Int.floor_le _
  have hqi : (v - mn) / s < (i : ℚ) + 1 := Int.lt_floor_add_one _
  have hle : (i : ℚ) * s ≤ v - mn := (le_div_iff₀ hs).mp hiq
  have hgt : v - mn < ((i : ℚ) + 1) * s := (div_lt_iff₀ hs).mp hqi
  have hi0 : 0 ≤ i := by
    rw [hi_def]
    exact Int.le_floor.mpr
      (by exact_mod_cast (div_pos (by linarith : (0 : ℚ) < v - mn) hs).le)
  have hi0' : (0 : ℚ) ≤ (i : ℚ) := by exact_mod_cast hi0
  rw [hid]
  by_cases hbig : i ≥ n
  · have hbig' : (n : ℚ) ≤ (i : ℚ) := by exact_mod_cast hbig
    have hvmx : mx ≤ v := by nlinarith
    have hveq : v = mx := le_antisymm hv2 hvmx
    have hcen : (LinSpaceBins.make mn mx n).id_to_bin_center i =
        mx - s / 2 := by
      simp [LinSpaceBins.make, LinSpaceBins.id_to_bin_center, if_pos hbig,
        hs_def]
    rw [hcen, hstep]
    refine ⟨by nlinarith, by linarith, ?_⟩
    rw [hveq, abs_le]
    constructor
    · linarith
    · linarith
  · have hsmall : i < n := not_le.mp hbig
    have hsmall' : (i : ℚ) ≤ (n : ℚ) - 1 := by
      have h1 : ((i : ℚ) + 1) ≤ (n : ℚ) := by
        exact_mod_cast Int.lt_iff_add_one_le.mp hsmall
      linarith
    have hil : (i : ℚ) * s ≤ ((n : ℚ) - 1) * s :=
      mul_le_mul_of_nonneg_right hsmall' hs.le
    have hnn : ¬ (i < 0) := not_lt.mpr hi0
    have hcen : (LinSpaceBins.make mn mx n).id_to_bin_center i =
        mn + (i : ℚ) * s + s / 2 := by
      simp [LinSpaceBins.make, LinSpaceBins.id_to_bin_center, if_neg hbig,
        if_neg hnn, hs_def]
    rw [hcen, hstep]
    have his : 0 ≤ (i : ℚ) * s := mul_nonneg hi0' hs.le
    refine ⟨by linarith, by nlinarith, ?_⟩
    rw [abs_le]
    constructor
    · nlinarith
    · nlinarith

/-- Witness for C4: `LinSpaceBins(0, 3000, 3)` at `v = 490`:
`center(id(490)) = 500` lies in `[0, 3000)` and `|490 - 500| ≤ 1000`. -/
theorem c4_linspace_center_roundtrip_witness :
    (0 : ℚ) ≤ (LinSpaceBins.make 0 3000 3).id_to_bin_center
        ((LinSpaceBins.make 0 3000 3).value_to_id 490) ∧
    (LinSpaceBins.make 0 3000 3).id_to_bin_center
        ((LinSpaceBins.make 0 3000 3).value_to_id 490) < 3000 ∧
    |(490 : ℚ) - (LinSpaceBins.make 0 3000 3).id_to_bin_center
        ((LinSpaceBins.make 0 3000 3).value_to_id 490)| ≤
      (LinSpaceBins.make 0 3000 3).step :=
  c4_linspace_center_roundtrip 0 3000 3 490 (by norm_num) (by decide)
    (by norm_num) (by norm_num)

lemma dedup_length_le {α : Type} [DecidableEq α] (l : List α) :
    l.dedup.length ≤ l.length :=
  (List.dedup_sublist l).length_le

lemma dedup_length_eq_iff {α : Type} [DecidableEq α] (l : List α) :
    l.dedup.length = l.length ↔ l.Nodup := by
  constructor
  · intro h
    have he : l.dedup = l := (List.dedup_sublist l).eq_of_length h
    rw [← he]
    exact l.nodup_dedup
  · intro h
    rw [List.dedup_eq_self.mpr h]

/-- Claim C5: whenever `coarse_grain` accepts `X` (returns without raising),
the returned center matrix has at most as many rows as `X`, with equality
exactly when no two rows of `X` are mapped to the same bin-id row by the
strategies that were used (`b'` is the bins container after any auto-fill,
as mutated by the call). -/
theorem c5_coarse_grain_row_count (b : Bins) (X : List (List ℚ))
    (n_features : ℕ) (b' : Bins) (C : List (List ℚ))
    (h : CGCluster.coarse_grain b X n_features = .ok (b', C)) :
    C.length ≤ X.length ∧
      (C.length = X.length ↔ (X.map b'.rowToId).Nodup) := by
  have hEval : coarseGrainEval b' X n_features = .ok (b', C) ∧
      C = ((X.map b'.rowToId).dedup).map b'.rowToCenter := by
    unfold CGCluster.coarse_grain at h
    by_cases h0 : b.get_num_axes = 0
    · rw [if_pos h0] at h
      obtain ⟨hb, _, hC⟩ := coarseGrainEval_ok h
      rw [← hb] at h
      exact ⟨h, by rw [hC, hb]⟩
    · rw [if_neg h0] at h
      by_cases h1 : b.get_num_axes < n_features
      · rw [if_pos h1] at h
        exact absurd h (by simp)
      · rw [if_neg h1] at h
        obtain ⟨hb, _, hC⟩ := coarseGrainEval_ok h
        rw [← hb] at h
        exact ⟨h, by rw [hC, hb]⟩
  obtain ⟨_, hC⟩ := hEval
  have hlen : C.length = ((X.map b'.rowToId).dedup).length := by
    rw [hC, List.length_map]
  have hXlen : (X.map b'.rowToId).length = X.length := List.length_map X _
  constructor
  · rw [hlen, ← hXlen]
    exact dedup_length_le _
  · rw [hlen, ← hXlen]
    exact dedup_length_eq_iff _

/-- Concrete run used by the C5 witness: one `ModuloBins(100)` axis, two
rows `[0]` and `[1]` that collapse onto the same id row `[0]`, so only the
single center row `[50]` survives. -/
lemma coarse_grain_collapse_example :
    CGCluster.coarse_grain ⟨.modulo ⟨100, 0⟩, [.modulo ⟨100, 0⟩]⟩
        [[0], [1]] 1 =
      .ok (⟨.modulo ⟨100, 0⟩, [.modulo ⟨100, 0⟩]⟩, [[50]]) := by
  have h0 : (ModuloBins.mk 100 0).value_to_id 0 = 0 := by
    norm_num [ModuloBins.value_to_id, pyTrunc]
  have h1 : (ModuloBins.mk 100 0).value_to_id 1 = 0 := by
    norm_num [ModuloBins.value_to_id, pyTrunc]
  have hc : (ModuloBins.mk 100 0).id_to_bin_center 0 = 50 := by
    norm_num [ModuloBins.id_to_bin_center]
  simp [CGCluster.coarse_grain, Bins.get_num_axes, coarseGrainEval,
    Bins.value_to_id, Bins.id_to_bin_center, Bins.rowToId, Bins.rowToCenter,
    Strategy.value_to_id, Strategy.id_to_bin_center, h0, h1, hc,
    List.dedup_cons_of_mem, List.dedup_cons_of_not_mem]

/-- Witness for C5: on the collapsing example the output has `1 ≤ 2` rows
and the equality test is falsified on both sides. -/
theorem c5_coarse_grain_row_count_witness :
    ([[(50 : ℚ)]] : List (List ℚ)).length ≤ ([[0], [1]] : List (List ℚ)).length ∧
      (([[(50 : ℚ)]] : List (List ℚ)).length = ([[0], [1]] : List (List ℚ)).length ↔
        (([[0], [1]] : List (List ℚ)).map
          (Bins.rowToId ⟨.modulo ⟨100, 0⟩, [.modulo ⟨100, 0⟩]⟩)).Nodup) :=
  c5_coarse_grain_row_count ⟨.modulo ⟨100, 0⟩, [.modulo ⟨100, 0⟩]⟩
    [[0], [1]] 1 ⟨.modulo ⟨100, 0⟩, [.modulo ⟨100, 0⟩]⟩ [[50]]
    coarse_grain_collapse_example

/-- Claim C6: `coarse_grain` with exactly zero configured strategies
auto-populates `n_features` copies of `ModuloBins(100)` and completes
without error, whereas any strategy count that is positive but strictly
below the feature count raises `AmbiguousCGFunction` (and hence no binning
output is produced). -/
theorem c6_zero_axes_autofill_vs_ambiguous (dflt : Strategy)
    (X : List (List ℚ)) (n_features : ℕ) :
    (∃ C, CGCluster.coarse_grain ⟨dflt, []⟩ X n_features =
      .ok (⟨dflt, List.replicate n_features (.modulo ⟨100, 0⟩)⟩, C)) ∧
    (∀ b : Bins, 0 < b.get_num_axes → b.get_num_axes < n_features →
      CGCluster.coarse_grain b X n_features = .error .ambiguousCGFunction) := by
  constructor
  · have hfill : CGCluster.fit_uniform_coarse_grain ⟨dflt, []⟩ n_features
        (.modulo ⟨100, 0⟩) =
        ⟨dflt, List.replicate n_features (.modulo ⟨100, 0⟩)⟩ := by
      have h1 := Bins.add_axes_bin_functions ⟨dflt, []⟩
        (List.replicate n_features (.modulo ⟨100, 0⟩))
      have h2 := Bins.add_axes_default_binf ⟨dflt, []⟩
        (List.replicate n_features (.modulo ⟨100, 0⟩))
      unfold CGCluster.fit_uniform_coarse_grain
      cases hb : Bins.add_axes ⟨dflt, []⟩
        (List.replicate n_features (.modulo ⟨100, 0⟩))
      rw [hb] at h1 h2
      simp only at h1 h2
      simp [h1, h2]
    refine ⟨(X.map
      (Bins.rowToId ⟨dflt, List.replicate n_features (.modulo ⟨100, 0⟩)⟩)).dedup.map
      (Bins.rowToCenter ⟨dflt, List.replicate n_features (.modulo ⟨100, 0⟩)⟩), ?_⟩
    have h0 : (Bins.mk dflt []).get_num_axes = 0 := rfl
    rw [CGCluster.coarse_grain, if_pos h0, hfill]
    simp [coarseGrainEval, Bins.value_to_id, Bins.id_to_bin_center]
  · intro b hpos hlt
    have h0 : ¬ (b.get_num_axes = 0) := Nat.pos_iff_ne_zero.mp hpos
    rw [CGCluster.coarse_grain, if_neg h0, if_pos hlt]

/-- Witness for C6: a 2-feature input with zero configured axes succeeds
with two auto-filled `ModuloBins(100)` axes, while a single configured axis
against the same input raises `AmbiguousCGFunction`. -/
theorem c6_zero_axes_autofill_vs_ambiguous_witness :
    (∃ C, CGCluster.coarse_grain ⟨.modulo ⟨100, 0⟩, []⟩ [[1, 2]] 2 =
      .ok (⟨.modulo ⟨100, 0⟩, List.replicate 2 (.modulo ⟨100, 0⟩)⟩, C)) ∧
    CGCluster.coarse_grain ⟨.modulo ⟨100, 0⟩, [.modulo ⟨100, 0⟩]⟩ [[1, 2]] 2 =
      .error .ambiguousCGFunction :=
  ⟨(c6_zero_axes_autofill_vs_ambiguous (.modulo ⟨100, 0⟩) [[1, 2]] 2).1,
    (c6_zero_axes_autofill_vs_ambiguous (.modulo ⟨100, 0⟩) [[1, 2]] 2).2
      ⟨.modulo ⟨100, 0⟩, [.modulo ⟨100, 0⟩]⟩ (by decide) (by decide)⟩

/-- Claim C7 (code bug): `fit_uniform_coarse_grain` is documented (in its
own docstring and in the spec) to *override* any previously configured
axes, but it calls `Bins.add_axes`, which appends: starting from one
configured axis and requesting `n_features = 2` leaves three strategies
configured, not two. -/
theorem c7_fit_uniform_appends_instead_of_overriding :
    (CGCluster.fit_uniform_coarse_grain
        ⟨.modulo ⟨100, 0⟩, [.modulo ⟨25, 0⟩]⟩ 2
        (.modulo ⟨100, 0⟩)).get_num_axes = 3 ∧ (3 : ℕ) ≠ 2 := by
  constructor
  · rfl
  · decide

/-- Concrete run shared by several witnesses: one `ModuloBins(100)` axis on
the single sample `[1253]` gives id row `[12]` and center row `[1250]`. -/
lemma coarse_grain_single_example :
    CGCluster.coarse_grain binsOneAxis [[1253]] 1 =
      .ok (binsOneAxis, [[1250]]) := by
  have h0 : (ModuloBins.mk 100 0).value_to_id 1253 = 12 := by
    norm_num [ModuloBins.value_to_id, pyTrunc]
  have hc : (ModuloBins.mk 100 0).id_to_bin_center 12 = 1250 := by
    norm_num [ModuloBins.id_to_bin_center]
  simp [CGCluster.coarse_grain, Bins.get_num_axes, binsOneAxis,
    coarseGrainEval, Bins.value_to_id, Bins.id_to_bin_center, Bins.rowToId,
    Bins.rowToCenter, Strategy.value_to_id, Strategy.id_to_bin_center,
    h0, hc]

/-- Claim C8: whenever the coarse-graining step of `KMCalico.fit(X)`
succeeds with bins `b'` and deduplicated centers `G`, the fit (1) fits
`coarse_model` on `G`, (2) seeds `fine_model`'s initial-centroid
configuration with exactly the centroids `centersOf` read off that coarse
fit, and (3) fits `fine_model` on the original matrix `X`, leaving the
template model untouched. -/
theorem c8_kmcalico_fit_pipeline (centersOf : MState → List (List ℚ))
    (st : KMCalicoState) (X : List (List ℚ)) (n_features : ℕ)
    (b' : Bins) (G : List (List ℚ))
    (hg : CGCluster.coarse_grain st.bins X n_features = .ok (b', G)) :
    KMCalicoState.fit centersOf st X n_features =
      .ok ⟨b', st.model, st.coarse_model.fitOn G,
        (st.fine_model.setInit (centersOf (st.coarse_model.fitOn G))).fitOn
          X⟩ ∧
    (st.coarse_model.fitOn G).fitData = some G ∧
    ((st.fine_model.setInit (centersOf (st.coarse_model.fitOn G))).fitOn
        X).init = some (centersOf (st.coarse_model.fitOn G)) ∧
    ((st.fine_model.setInit (centersOf (st.coarse_model.fitOn G))).fitOn
        X).fitData = some X := by
  refine ⟨?_, rfl, rfl, rfl⟩
  unfold KMCalicoState.fit
  rw [hg]

/-- Witness for C8: the one-axis example fit on `[[1253]]`, with an
abstract centroid reader returning `[[7]]`: the fine model ends up seeded
with `[[7]]` and fit on the original `[[1253]]`. -/
theorem c8_kmcalico_fit_pipeline_witness :
    (((KMCalicoState.make binsOneAxis templateModel).fine_model.setInit
        ((fun _ => [[(7 : ℚ)]])
          ((KMCalicoState.make binsOneAxis
              templateModel).coarse_model.fitOn [[1250]]))).fitOn
        [[1253]]).init =
      some ((fun _ => [[(7 : ℚ)]])
        ((KMCalicoState.make binsOneAxis
            templateModel).coarse_model.fitOn [[1250]])) ∧
    (((KMCalicoState.make binsOneAxis templateModel).fine_model.setInit
        ((fun _ => [[(7 : ℚ)]])
          ((KMCalicoState.make binsOneAxis
              templateModel).coarse_model.fitOn [[1250]]))).fitOn
        [[1253]]).fitData = some [[1253]] :=
  ⟨(c8_kmcalico_fit_pipeline (fun _ => [[(7 : ℚ)]])
      (KMCalicoState.make binsOneAxis templateModel) [[1253]] 1
      binsOneAxis [[1250]] coarse_grain_single_example).2.2.1,
    (c8_kmcalico_fit_pipeline (fun _ => [[(7 : ℚ)]])
      (KMCalicoState.make binsOneAxis templateModel) [[1253]] 1
      binsOneAxis [[1250]] coarse_grain_single_example).2.2.2⟩

/-- Claim C9 counterexample: `predict(X, model="default")` runs
`self.model.fit_predict(X)`, which fits the caller-supplied template model
in place: on a freshly constructed wrapper whose template has never been
fit, the template's fitted state changes from `none` to `some X`. -/
theorem c9_predict_default_mutates_template :
    ((CGClusterState.predict (fun _ _ => [])
        (CGClusterState.make Bins.init ⟨none, .auto, none⟩)
        [[1]] "default").toOption.map (fun p => p.1.model.fitData)) =
      some (some [[(1 : ℚ)]]) ∧
    (CGClusterState.make Bins.init ⟨none, .auto, none⟩).model.fitData =
      none ∧
    some [[(1 : ℚ)]] ≠ (none : Option (List (List ℚ))) := by
  refine ⟨?_, rfl, by simp⟩
  rfl

/-- Claim C9, amended: `CGCluster.fit` and `KMCalico.fit` never change the
template model, and `predict` with mode `"coarse"` changes no state at all;
but `predict` with mode `"default"` fits the template model in place (its
state becomes that of the template fit on `X`), while leaving
`coarse_model` unchanged. -/
theorem c9_template_model_mutation :
    (∀ (st : CGClusterState) (X : List (List ℚ)) (nf : ℕ)
        (st' : CGClusterState),
        st.fit X nf = .ok st' → st'.model = st.model) ∧
    (∀ (lf : MState → List (List ℚ) → List ℤ) (st : CGClusterState)
        (X : List (List ℚ)) (out : CGClusterState × List ℤ),
        CGClusterState.predict lf st X "coarse" = .ok out → out.1 = st) ∧
    (∀ (lf : MState → List (List ℚ) → List ℤ) (st : CGClusterState)
        (X : List (List ℚ)) (out : CGClusterState × List ℤ),
        CGClusterState.predict lf st X "default" = .ok out →
          out.1.coarse_model = st.coarse_model ∧
          out.1.model = st.model.fitOn X) ∧
    (∀ (cf : MState → List (List ℚ)) (st : KMCalicoState)
        (X : List (List ℚ)) (nf : ℕ) (st' : KMCalicoState),
        KMCalicoState.fit cf st X nf = .ok st' → st'.model = st.model) := by
  refine ⟨?_, ?_, ?_, ?_⟩
  · intro st X nf st' h
    unfold CGClusterState.fit at h
    cases hcg : CGCluster.coarse_grain st.bins X nf with
    | error e =>
      rw [hcg] at h
      exact absurd h (by simp)
    | ok p =>
      obtain ⟨b', G⟩ := p
      rw [hcg] at h
      simp only [Except.ok.injEq] at h
      rw [← h]
  · intro lf st X out h
    unfold CGClusterState.predict at h
    rw [if_pos rfl] at h
    simp only [Except.ok.injEq] at h
    rw [← h]
  · intro lf st X out h
    unfold CGClusterState.predict at h
    rw [if_neg (by decide), if_pos rfl] at h
    simp only [Except.ok.injEq] at h
    rw [← h]
    exact ⟨rfl, rfl⟩
  · intro cf st X nf st' h
    unfold KMCalicoState.fit at h
    cases hcg : CGCluster.coarse_grain st.bins X nf with
    | error e =>
      rw [hcg] at h
      exact absurd h (by simp)
    | ok p =>
      obtain ⟨b', G⟩ := p
      rw [hcg] at h
      simp only [Except.ok.injEq] at h
      rw [← h]

/-- Concrete `CGCluster.fit` run for the C9 witness. -/
lemma cg_fit_example :
    (CGClusterState.make binsOneAxis templateModel).fit [[1253]] 1 =
      .ok ⟨binsOneAxis, templateModel, templateModel.fitOn [[1250]]⟩ := by
  unfold CGClusterState.fit
  rw [show (CGClusterState.make binsOneAxis templateModel).bins =
      binsOneAxis from rfl, coarse_grain_single_example]
  rfl

/-- Witness for C9: on the concrete fit run, the template model of the
result equals the template model of the input wrapper. -/
theorem c9_template_model_mutation_witness :
    (⟨binsOneAxis, templateModel, templateModel.fitOn [[1250]]⟩ :
        CGClusterState).model =
      (CGClusterState.make binsOneAxis templateModel).model :=
  c9_template_model_mutation.1
    (CGClusterState.make binsOneAxis templateModel) [[1253]] 1
    ⟨binsOneAxis, templateModel, templateModel.fitOn [[1250]]⟩
    cg_fit_example

/-- Concrete run for C10: `coarse_grain([[0, 0]])` through a
default-constructed `CGCluster` on the freshly imported module. -/
lemma cg_ref_autofill_example :
    CGClusterRef.coarse_grain PyHeap.initial CGClusterRef.initDefault
        [[0, 0]] 2 =
      .ok (heapAfterAutofill, [[50, 50]]) := by
  have h0 : (ModuloBins.mk 100 0).value_to_id 0 = 0 := by
    norm_num [ModuloBins.value_to_id, pyTrunc]
  have hc : (ModuloBins.mk 100 0).id_to_bin_center 0 = 50 := by
    norm_num [ModuloBins.id_to_bin_center]
  simp [CGClusterRef.coarse_grain, PyHeap.initial, PyHeap.read,
    PyHeap.write, CGClusterRef.initDefault, CGCluster.coarse_grain,
    Bins.get_num_axes, Bins.init, CGCluster.fit_uniform_coarse_grain,
    Bins.add_axes, Bins.add_axis, coarseGrainEval, Bins.value_to_id,
    Bins.id_to_bin_center, Bins.rowToId, Bins.rowToCenter,
    Strategy.value_to_id, Strategy.id_to_bin_center, h0, hc,
    heapAfterAutofill, List.replicate]

/-- Claim C10 counterexample: the `CGCluster.__init__` and
`KMCalico.__init__` defaults are two distinct `Bins` objects, so the
strategies auto-filled through a default-constructed `CGCluster` are *not*
visible to a default-constructed `KMCalico`: after the call the CGCluster
default object holds 2 axes but the KMCalico default object still holds
0. -/
theorem c10_default_bins_not_shared_across_classes :
    ((CGClusterRef.coarse_grain PyHeap.initial CGClusterRef.initDefault
        [[0, 0]] 2).toOption.map
      (fun p => ((p.1.read KMCalicoRef.initDefault).get_num_axes,
        (p.1.read CGClusterRef.initDefault).get_num_axes))) =
      some (0, 2) ∧ (0 : ℕ) ≠ 2 := by
  rw [cg_ref_autofill_example]
  exact ⟨rfl, by decide⟩

/-- Claim C10, amended: the default `bins` object is shared per class: a
`coarse_grain` call through a default-constructed `CGCluster` whose shared
default object is still empty auto-fills it with `n_features` strategies,
and because every other default-constructed `CGCluster` reads the very
same object, they all observe the `n_features` auto-filled axes; instances
constructed with an explicit `bins` argument, and `KMCalico`'s separate
class-level default object, are unaffected. -/
theorem c10_default_bins_shared_per_class (h : PyHeap)
    (X : List (List ℚ)) (n_features : ℕ) (h' : PyHeap)
    (C : List (List ℚ))
    (h0 : (h.read CGClusterRef.initDefault).get_num_axes = 0)
    (hok : CGClusterRef.coarse_grain h CGClusterRef.initDefault X
        n_features = .ok (h', C)) :
    (h'.read CGClusterRef.initDefault).get_num_axes = n_features ∧
    (∀ n : ℕ, h'.read (.alloc n) = h.read (.alloc n)) ∧
    h'.read KMCalicoRef.initDefault = h.read KMCalicoRef.initDefault := by
  unfold CGClusterRef.coarse_grain at hok
  cases hcg : CGCluster.coarse_grain (h.read CGClusterRef.initDefault) X
      n_features with
  | error e =>
    rw [hcg] at hok
    exact absurd hok (by simp)
  | ok p =>
    obtain ⟨b', C'⟩ := p
    rw [hcg] at hok
    simp only [Except.ok.injEq, Prod.mk.injEq] at hok
    obtain ⟨hh, _⟩ := hok
    unfold CGCluster.coarse_grain at hcg
    rw [if_pos h0] at hcg
    obtain ⟨hb, hlen, _⟩ := coarseGrainEval_ok hcg
    rw [← hh]
    refine ⟨?_, fun n => rfl, rfl⟩
    show b'.bin_functions.length = n_features
    rw [hb]
    exact hlen

/-- Witness for C10: the concrete auto-fill run on the fresh heap: the
CGCluster default object afterwards holds 2 axes and the KMCalico default
object is exactly what it was. -/
theorem c10_default_bins_shared_per_class_witness :
    (heapAfterAutofill.read CGClusterRef.initDefault).get_num_axes = 2 ∧
    heapAfterAutofill.read KMCalicoRef.initDefault =
      PyHeap.initial.read KMCalicoRef.initDefault :=
  ⟨(c10_default_bins_shared_per_class PyHeap.initial [[0, 0]] 2
      heapAfterAutofill [[50, 50]] rfl cg_ref_autofill_example).1,
    (c10_default_bins_shared_per_class PyHeap.initial [[0, 0]] 2
      heapAfterAutofill [[50, 50]] rfl cg_ref_autofill_example).2.2⟩
